import Mathlib

/-!
Verification of the SuperStore dashboard's data-preparation and aggregation
pipeline (src/app.py), shallowly embedded in Lean.

Modelling conventions, matching the pandas semantics of the source:
- dates are integer day indices (pandas timestamps at date granularity);
- currency and discount values are rationals; the pandas float division
  `Profit / Sales` is modelled by `PyFloat`, which mirrors the IEEE outcomes
  of dividing by zero (NaN, +inf, -inf) that numpy produces without raising;
- a pandas DataFrame is a list of records; a left merge
  (`DataFrame.merge(..., how='left')`) emits one row per matching pair of
  rows and a single null-extended row when there is no match;
- nullable columns produced by left joins are `Option`-valued fields;
- `Series.isin` matches null entries against nulls in the value list, so it
  is plain `Option` membership;
- `groupby` with its defaults sorts the distinct group keys ascending and
  drops rows whose group key is null (`dropna=True`);
- `Series.max()` on an empty series yields NaT/NaN, modelled as `none`;
- `Series.idxmax()` raises `ValueError` on an empty series, modelled as
  `Except.error`.
-/

namespace SuperStore

/-- Outcome of a pandas/numpy float computation: a finite value or one of the
IEEE specials that division by zero produces (no exception is raised, which
the warnings filter in app.py line 10 also silences). -/
inductive PyFloat where
  | finite (q : Rat)
  | posInf
  | negInf
  | nan
deriving DecidableEq, Repr

/-- numpy float division: x / 0 is NaN when x = 0, +inf when x > 0 and
-inf when x < 0; otherwise the exact quotient. -/
def pyDiv (a b : Rat) : PyFloat :=
  if b = 0 then
    if a = 0 then PyFloat.nan else if 0 < a then PyFloat.posInf else PyFloat.negInf
  else PyFloat.finite (a / b)

/-- Multiplication of a float result by the positive constant 100, as in
`(...) * 100`: the IEEE specials are preserved (inf * 100 = inf, etc.). -/
def pyMul100 : PyFloat → PyFloat
  | PyFloat.finite q => PyFloat.finite (q * 100)
  | PyFloat.posInf => PyFloat.posInf
  | PyFloat.negInf => PyFloat.negInf
  | PyFloat.nan => PyFloat.nan

/-- app.py line 70: `data['Profit_Margin'] = (data['Profit'] / data['Sales']) * 100`,
and the same formula per group at lines 277 and 336-338. -/
def profitMarginOf (profit sales : Rat) : PyFloat :=
  pyMul100 (pyDiv profit sales)

/-- A row of the Orders sheet (columns used by app.py). -/
structure Order where
  orderId : String
  orderDate : Int
  shipDate : Int
  shipMode : String
  customerId : String
  locationId : String
  productId : String
  salesRep : String
  quantity : Int
  discount : Rat
  sales : Rat
  profit : Rat
deriving DecidableEq, Repr

/-- A row of the Location sheet. -/
structure Location where
  locationId : String
  city : String
  state : String
  postalCode : Int
  region : String
deriving DecidableEq, Repr

/-- A row of the Customers sheet. -/
structure Customer where
  customerId : String
  customerName : String
  segment : String
deriving DecidableEq, Repr

/-- A row of the Products sheet. -/
structure Product where
  productId : String
  category : String
  subCategory : String
  productName : String
deriving DecidableEq, Repr

/-- A row of the SalesTeam sheet. -/
structure SalesTeamMember where
  salesRep : String
  salesTeam : String
  salesTeamManager : String
deriving DecidableEq, Repr

/-- A row of the denormalized dataset built by load_data (app.py lines 56-72):
the Orders columns, the left-joined lookup columns (null, i.e. `none`, when the
foreign key had no match), and the derived metrics of lines 70-71.  The
calendar decompositions of lines 59-62 (Year/Month/Quarter/Month_Name) are
functions of `orderDate` not involved in any claim and are not replicated.
`discountRange` models the `Discount_Range` column: it does not exist after
load_data (`none` everywhere) and is only written by app.py line 354. -/
structure DenormRecord where
  orderId : String
  orderDate : Int
  shipDate : Int
  shipMode : String
  customerId : String
  locationId : String
  productId : String
  salesRep : String
  quantity : Int
  discount : Rat
  sales : Rat
  profit : Rat
  city : Option String
  state : Option String
  region : Option String
  customerName : Option String
  segment : Option String
  category : Option String
  subCategory : Option String
  productName : Option String
  salesTeam : Option String
  salesTeamManager : Option String
  profitMargin : PyFloat
  daysToShip : Int
  discountRange : Option String
deriving DecidableEq, Repr

/-- Assemble one denormalized record from an order row and the (possibly
missing) matches found for its four foreign keys. -/
def mkRec (o : Order) (loc : Option Location) (cust : Option Customer)
    (prod : Option Product) (rep : Option SalesTeamMember) : DenormRecord :=
  { orderId := o.orderId
    orderDate := o.orderDate
    shipDate := o.shipDate
    shipMode := o.shipMode
    customerId := o.customerId
    locationId := o.locationId
    productId := o.productId
    salesRep := o.salesRep
    quantity := o.quantity
    discount := o.discount
    sales := o.sales
    profit := o.profit
    city := loc.map (fun l => l.city)
    state := loc.map (fun l => l.state)
    region := loc.map (fun l => l.region)
    customerName := cust.map (fun c => c.customerName)
    segment := cust.map (fun c => c.segment)
    category := prod.map (fun p => p.category)
    subCategory := prod.map (fun p => p.subCategory)
    productName := prod.map (fun p => p.productName)
    salesTeam := rep.map (fun s => s.salesTeam)
    salesTeamManager := rep.map (fun s => s.salesTeamManager)
    profitMargin := profitMarginOf o.profit o.sales
    daysToShip := o.shipDate - o.orderDate
    discountRange := none }

/-- The rows a pandas left merge pairs one left row with: every matching right
row in table order, or a single null row when there is no match. -/
def lookupMatches {β : Type} (tbl : List β) (key : β → String) (k : String) :
    List (Option β) :=
  if (tbl.filter (fun b => key b == k)).isEmpty then [none]
  else (tbl.filter (fun b => key b == k)).map some

/-- The first matching right row, if any (the unique one when the key column
of the right table has no duplicates). -/
def matchOne {β : Type} (tbl : List β) (key : β → String) (k : String) : Option β :=
  (tbl.filter (fun b => key b == k)).head?

/-- app.py lines 64-68: the chain of four left merges
`orders.merge(locations, on='Location ID', how='left')` ... on Customer ID,
Product ID and Sales Rep, followed by the derived-metric columns of
lines 70-71 (folded into `mkRec`). -/
def joinTables (orders : List Order) (locations : List Location)
    (customers : List Customer) (products : List Product)
    (salesteam : List SalesTeamMember) : List DenormRecord :=
  orders.flatMap fun o =>
    (lookupMatches locations (fun l => l.locationId) o.locationId).flatMap fun loc =>
      (lookupMatches customers (fun c => c.customerId) o.customerId).flatMap fun cust =>
        (lookupMatches products (fun p => p.productId) o.productId).flatMap fun prod =>
          (lookupMatches salesteam (fun s => s.salesRep) o.salesRep).map fun rep =>
            mkRec o loc cust prod rep

/-- The criteria built from the sidebar widgets (app.py lines 93-119):
the date-input value (a list that has two entries only when the user picked a
complete range) and the three multiselect values.  Region/Category/Segment
options come from `unique()` over nullable joined columns, hence options and
selections are `Option String`. -/
structure FilterCriteria where
  dateRange : List Int
  regions : List (Option String)
  categories : List (Option String)
  segments : List (Option String)
deriving Repr

/-- app.py lines 122-135: the conjunctive boolean-mask filter.  When the
date-input value does not have exactly two entries the date conditions are
dropped entirely (the `else` branch). -/
def applyFilters (crit : FilterCriteria) (data : List DenormRecord) :
    List DenormRecord :=
  if crit.dateRange.length = 2 then
    data.filter fun r =>
      decide (crit.dateRange[0]! ≤ r.orderDate) &&
        decide (r.orderDate ≤ crit.dateRange[1]!) &&
        crit.regions.contains r.region &&
        crit.categories.contains r.category &&
        crit.segments.contains r.segment
  else
    data.filter fun r =>
      crit.regions.contains r.region &&
        crit.categories.contains r.category &&
        crit.segments.contains r.segment

/-- Lexicographic comparison of character lists by Unicode code point:
the order python/pandas sorts string group keys by. -/
def strLtList : List Char → List Char → Bool
  | [], [] => false
  | [], _ :: _ => true
  | _ :: _, [] => false
  | a :: as, b :: bs =>
    if a.val < b.val then true
    else if b.val < a.val then false
    else strLtList as bs

/-- Non-strict string order used to sort group keys ascending. -/
def strLe (a b : String) : Bool :=
  !(strLtList b.data a.data)

/-- The distinct non-null values of a key column, ascending — the group keys a
pandas `groupby` produces with its defaults (`sort=True`, `dropna=True`:
rows whose key is null belong to no group). -/
def groupKeys (key : DenormRecord → Option String) (data : List DenormRecord) :
    List String :=
  List.insertionSort (fun a b => strLe a b = true) (data.filterMap key).dedup

/-- Sum of a numeric column over a list of records. -/
def sumBy (f : DenormRecord → Rat) (data : List DenormRecord) : Rat :=
  (data.map f).sum

/-- `data.groupby(key)[column].sum()`: one row per distinct non-null key, in
ascending key order, carrying the sum of `f` over that group. -/
def groupBySum (key : DenormRecord → Option String) (f : DenormRecord → Rat)
    (data : List DenormRecord) : List (String × Rat) :=
  (groupKeys key data).map fun k =>
    (k, sumBy f (data.filter (fun r => key r == some k)))

/-- app.py line 245 (and the identical recomputation at line 499):
`filtered_data.groupby('Region')['Sales'].sum()`. -/
def regionSales (data : List DenormRecord) : List (String × Rat) :=
  groupBySum (fun r => r.region) (fun r => r.sales) data

/-- app.py lines 336-338: per-category profit margin
`(x['Profit'].sum() / x['Sales'].sum()) * 100` (float division, so a group
with zero total sales yields an IEEE special, not an exception). -/
def categoryMargin (data : List DenormRecord) : List (String × PyFloat) :=
  (groupKeys (fun r => r.category) data).map fun k =>
    (k, profitMarginOf
      (sumBy (fun r => r.profit) (data.filter (fun r => r.category == some k)))
      (sumBy (fun r => r.sales) (data.filter (fun r => r.category == some k))))

/-- `Series.max()`: `none` on an empty series (pandas yields NaT/NaN there
rather than raising). -/
def seriesMax : List Int → Option Int
  | [] => none
  | x :: xs =>
    match seriesMax xs with
    | none => some x
    | some m => some (max x m)

/-- Scan for the label of the first maximal value. -/
def idxmaxGo (k : String) (v : Rat) : List (String × Rat) → String
  | [] => k
  | (k2, v2) :: rest => if v < v2 then idxmaxGo k2 v2 rest else idxmaxGo k v rest

/-- `Series.idxmax()`: the index label of the first occurrence of the maximum;
on an empty series pandas raises `ValueError`, modelled as `Except.error`. -/
def idxmax (l : List (String × Rat)) : Except String String :=
  match l with
  | [] => Except.error "attempt to get argmax of an empty sequence"
  | (k, v) :: rest => Except.ok (idxmaxGo k v rest)

/-- app.py line 499: `filtered_data.groupby('Region')['Sales'].sum().idxmax()`. -/
def bestRegion (data : List DenormRecord) : Except String String :=
  idxmax (regionSales data)

/-- app.py lines 468-475: the RFM scorer.  `current_date` is the maximum order
date of the filtered set; per customer id the group lambda computes
`(current_date - x.max()).days` (recency), the order count (frequency) and the
sales sum (monetary).  On an empty input the group list is empty, so the
per-group lambda — and with it the `getD` default standing in for pandas' NaT —
is never evaluated, exactly as in pandas. -/
structure RFMRow where
  customerId : String
  recency : Int
  frequency : Nat
  monetary : Rat
deriving DecidableEq, Repr

def rfmScore (data : List DenormRecord) : List RFMRow :=
  let current := (seriesMax (data.map (fun r => r.orderDate))).getD 0
  (groupKeys (fun r => some r.customerId) data).map fun c =>
    let grp := data.filter (fun r => r.customerId == c)
    { customerId := c
      recency := current - (seriesMax (grp.map (fun r => r.orderDate))).getD 0
      frequency := grp.length
      monetary := (grp.map (fun r => r.sales)).sum }

/-- app.py lines 354-358: `pd.cut(filtered_data['Discount'],
bins=[0, 0.1, 0.2, 0.3, 1.0], labels=[...])`.  With pd.cut's defaults
(`right=True`, `include_lowest=False`) the bins are the left-open right-closed
intervals (0, 0.1], (0.1, 0.2], (0.2, 0.3], (0.3, 1.0]; a value outside their
union — including exactly 0 — is binned as NaN, here `none`. -/
def discountBucket (d : Rat) : Option String :=
  if 0 < d ∧ d ≤ 1/10 then some "0-10%"
  else if 1/10 < d ∧ d ≤ 2/10 then some "10-20%"
  else if 2/10 < d ∧ d ≤ 3/10 then some "20-30%"
  else if 3/10 < d ∧ d ≤ 1 then some "30%+"
  else none

/-- The bucketing the spec describes (section 4.4): left-closed right-open
ranges [0, 0.1), [0.1, 0.2), [0.2, 0.3) and the closed [0.3, 1.0].  Stated
from the spec's words only, to compare against `discountBucket` above. -/
def discountBucketSpec (d : Rat) : Option String :=
  if 0 ≤ d ∧ d < 1/10 then some "0-10%"
  else if 1/10 ≤ d ∧ d < 2/10 then some "10-20%"
  else if 2/10 ≤ d ∧ d < 3/10 then some "20-30%"
  else if 3/10 ≤ d ∧ d ≤ 1 then some "30%+"
  else none

/-- The four bucket labels, in their categorical order. -/
def bucketLabels : List String := ["0-10%", "10-20%", "20-30%", "30%+"]

/-- `Series.mean()` over a group: NaN (`none`) when the group is empty. -/
def meanProfit (rows : List DenormRecord) : Option Rat :=
  if rows.length = 0 then none
  else some ((rows.map (fun r => r.profit)).sum / (rows.length : Rat))

/-- app.py line 359: `filtered_data.groupby('Discount_Range')['Profit'].mean()`
— grouping by a categorical column, which with the pandas default
(`observed=False`) emits one row per declared category, in categorical order,
with NaN for categories no row falls in. -/
def discountImpact (data : List DenormRecord) : List (String × Option Rat) :=
  bucketLabels.map fun l =>
    (l, meanProfit (data.filter (fun r => discountBucket r.discount == some l)))

/-- app.py line 354: `filtered_data['Discount_Range'] = pd.cut(...)` — the
column assignment writes the bucket of each record's discount into the
filtered working set itself. -/
def addDiscountRange (data : List DenormRecord) : List DenormRecord :=
  data.map fun r => { r with discountRange := discountBucket r.discount }

/-- Descending order of a list with respect to a numeric projection. -/
def SortedDescRat {α : Type} (f : α → Rat) (l : List α) : Prop :=
  List.Sorted (fun a b => f b ≤ f a) l

instance {α : Type} (f : α → Rat) (l : List α) : Decidable (SortedDescRat f l) :=
  inferInstanceAs (Decidable (List.Pairwise _ l))

/-- `sort_values(ascending=False)` with its default `kind='quicksort'`:
pandas documents quicksort as not stable, so the call's contract determines
the result only up to: some permutation of the input that is descending in
the sort column.  Any such permutation is an admissible output. -/
def SortValuesDesc {α : Type} (f : α → Rat) (input output : List α) : Prop :=
  output.Perm input ∧ SortedDescRat f output

/-- `....sort_values(ascending=False).head(n)`: an admissible output is the
first `n` rows of an admissible sort of the input. -/
def TopNBy {α : Type} (n : Nat) (f : α → Rat) (input output : List α) : Prop :=
  ∃ s, SortValuesDesc f input s ∧ output = s.take n

/-- app.py line 258: group by State, sum Sales, sort descending, head(10). -/
def TopStates (data : List DenormRecord) (out : List (String × Rat)) : Prop :=
  TopNBy 10 Prod.snd (groupBySum (fun r => r.state) (fun r => r.sales) data) out

/-- app.py line 317: group by Sub-Category, sum Sales, sort descending,
head(10). -/
def TopSubCategories (data : List DenormRecord) (out : List (String × Rat)) : Prop :=
  TopNBy 10 Prod.snd
    (groupBySum (fun r => r.subCategory) (fun r => r.sales) data) out

/-- app.py lines 412-416: the per-customer aggregation — sum of Sales, sum of
Profit and count of Order IDs per distinct customer name. -/
def customerAgg (data : List DenormRecord) : List (String × Rat × Rat × Nat) :=
  (groupKeys (fun r => r.customerName) data).map fun k =>
    let grp := data.filter (fun r => r.customerName == some k)
    (k, (grp.map (fun r => r.sales)).sum, (grp.map (fun r => r.profit)).sum,
      grp.length)

/-- app.py line 416: `.sort_values('Sales', ascending=False).head(15)` over the
per-customer aggregation. -/
def TopCustomers (data : List DenormRecord)
    (out : List (String × Rat × Rat × Nat)) : Prop :=
  TopNBy 15 (fun row => row.2.1) (customerAgg data) out

/-! ### Helper lemmas -/

theorem contains_iff {α : Type} [BEq α] [LawfulBEq α] (l : List α) (x : α) :
    l.contains x = true ↔ x ∈ l :=
  List.elem_iff

theorem filter_key_length_le_one {β : Type} (tbl : List β) (key : β → String)
    (k : String) (h : (tbl.map key).Nodup) :
    (tbl.filter (fun b => key b == k)).length ≤ 1 := by
  induction tbl with
  | nil => simp
  | cons b t ih =>
    simp only [List.map_cons, List.nodup_cons] at h
    by_cases hb : (key b == k) = true
    · have ht : t.filter (fun x => key x == k) = [] := by
        apply List.filter_eq_nil_iff.mpr
        intro x hx hxk
        apply h.1
        have hxkk : key x = k := by simpa using hxk
        have hbk : key b = k := by simpa using hb
        rw [List.mem_map]
        exact ⟨x, hx, by rw [hxkk, hbk]⟩
      simp [List.filter_cons, hb, ht]
    · simp only [List.filter_cons, hb, if_false, Bool.false_eq_true, if_neg]
      exact ih h.2

theorem lookupMatches_eq_single {β : Type} (tbl : List β) (key : β → String)
    (k : String) (h : (tbl.map key).Nodup) :
    lookupMatches tbl key k = [matchOne tbl key k] := by
  have hlen := filter_key_length_le_one tbl key k h
  unfold lookupMatches matchOne
  cases hf : tbl.filter (fun b => key b == k) with
  | nil => simp
  | cons m rest =>
    rw [hf] at hlen
    have hrest : rest = [] := by
      simp only [List.length_cons] at hlen
      exact List.length_eq_zero.mp (by omega)
    subst hrest
    simp

theorem joinTables_eq_map (orders : List Order) (locations : List Location)
    (customers : List Customer) (products : List Product)
    (salesteam : List SalesTeamMember)
    (hl : (locations.map (fun l => l.locationId)).Nodup)
    (hc : (customers.map (fun c => c.customerId)).Nodup)
    (hp : (products.map (fun p => p.productId)).Nodup)
    (hs : (salesteam.map (fun s => s.salesRep)).Nodup) :
    joinTables orders locations customers products salesteam =
      orders.map fun o =>
        mkRec o (matchOne locations (fun l => l.locationId) o.locationId)
          (matchOne customers (fun c => c.customerId) o.customerId)
          (matchOne products (fun p => p.productId) o.productId)
          (matchOne salesteam (fun s => s.salesRep) o.salesRep) := by
  unfold joinTables
  simp only [lookupMatches_eq_single _ _ _ hl, lookupMatches_eq_single _ _ _ hc,
    lookupMatches_eq_single _ _ _ hp, lookupMatches_eq_single _ _ _ hs,
    List.flatMap_singleton, List.map_cons, List.map_nil]
  exact (List.map_eq_flatMap _ _).symm

theorem sum_filter_disjoint {α : Type} (p q : α → Bool) (f : α → Rat)
    (l : List α) (h : ∀ a, ¬(p a = true ∧ q a = true)) :
    ((l.filter p).map f).sum + ((l.filter q).map f).sum
      = ((l.filter (fun a => p a || q a)).map f).sum := by
  induction l with
  | nil => simp
  | cons a t ih =>
    by_cases hp : p a = true
    · have hq : q a = false := by
        by_cases hq : q a = true
        · exact absurd ⟨hp, hq⟩ (h a)
        · exact Bool.eq_false_iff.mpr hq
      simp [List.filter_cons, hp, hq]
      linear_combination ih
    · have hp : p a = false := Bool.eq_false_iff.mpr hp
      by_cases hq : q a = true
      · simp [List.filter_cons, hp, hq]
        linear_combination ih
      · have hq : q a = false := Bool.eq_false_iff.mpr hq
        simp [List.filter_cons, hp, hq]
        linear_combination ih

theorem groupKeys_nodup (key : DenormRecord → Option String)
    (data : List DenormRecord) : (groupKeys key data).Nodup :=
  List.Perm.nodup (List.perm_insertionSort _ _).symm
    (List.nodup_dedup (data.filterMap key))

theorem mem_groupKeys (key : DenormRecord → Option String)
    (data : List DenormRecord) (k : String) :
    k ∈ groupKeys key data ↔ ∃ r ∈ data, key r = some k := by
  unfold groupKeys
  rw [(List.perm_insertionSort _ _).mem_iff, List.mem_dedup, List.mem_filterMap]

theorem sum_over_keys (key : DenormRecord → Option String)
    (f : DenormRecord → Rat) (data : List DenormRecord) (ks : List String)
    (hnd : ks.Nodup) :
    (ks.map (fun k => sumBy f (data.filter (fun r => key r == some k)))).sum
      = sumBy f (data.filter (fun r => ks.any (fun k => key r == some k))) := by
  induction ks with
  | nil => simp [sumBy]
  | cons k rest ih =>
    simp only [List.nodup_cons] at hnd
    rw [List.map_cons, List.sum_cons, ih hnd.2]
    have hdisj : ∀ r : DenormRecord,
        ¬((key r == some k) = true ∧ (rest.any (fun k2 => key r == some k2)) = true) := by
      rintro r ⟨h1, h2⟩
      have e1 : key r = some k := by simpa using h1
      rcases List.any_eq_true.mp h2 with ⟨k2, hk2, he⟩
      have e2 : key r = some k2 := by simpa using he
      rw [e1] at e2
      injection e2 with e2
      exact hnd.1 (e2 ▸ hk2)
    unfold sumBy
    rw [sum_filter_disjoint _ _ _ _ hdisj]
    have hpred : (fun a => (key a == some k) || rest.any (fun k2 => key a == some k2))
        = fun r => (k :: rest).any (fun k2 => key r == some k2) := by
      funext r
      simp [List.any_cons]
    rw [hpred]

theorem seriesMax_eq_none (l : List Int) (h : seriesMax l = none) : l = [] := by
  cases l with
  | nil => rfl
  | cons x xs =>
    exfalso
    cases hsm : seriesMax xs <;> simp [seriesMax, hsm] at h

theorem seriesMax_spec (l : List Int) (h : l ≠ []) :
    ∃ m, seriesMax l = some m ∧ m ∈ l ∧ ∀ x ∈ l, x ≤ m := by
  induction l with
  | nil => exact absurd rfl h
  | cons x xs ih =>
    cases hsm : seriesMax xs with
    | none =>
      have hnil := seriesMax_eq_none xs hsm
      subst hnil
      refine ⟨x, by simp [seriesMax], List.mem_cons_self x [], ?_⟩
      intro z hz
      simp only [List.mem_cons, List.not_mem_nil, or_false] at hz
      exact le_of_eq hz
    | some m =>
      have hne : xs ≠ [] := by
        intro hnil
        subst hnil
        simp [seriesMax] at hsm
      obtain ⟨m2, hm2, hmem, hbound⟩ := ih hne
      rw [hm2] at hsm
      obtain rfl := Option.some.inj hsm
      refine ⟨max x m2, ?_, ?_, ?_⟩
      · simp [seriesMax, hm2]
      · rcases le_total x m2 with hle | hle
        · rw [max_eq_right hle]
          exact List.mem_cons_of_mem x hmem
        · rw [max_eq_left hle]
          exact List.mem_cons_self x xs
      · intro z hz
        rcases List.mem_cons.mp hz with hz | hz
        · exact hz ▸ le_max_left x m2
        · exact le_trans (hbound z hz) (le_max_right x m2)

theorem topNBy_shape {α : Type} (n : Nat) (f : α → Rat) (input out : List α)
    (h : TopNBy n f input out) : out.length ≤ n ∧ SortedDescRat f out := by
  rcases h with ⟨s, ⟨_, hsort⟩, rfl⟩
  exact ⟨List.length_take_le n s, List.Pairwise.sublist (List.take_sublist n s) hsort⟩

/-! ### Concrete sample data used by witnesses and counterexamples -/

/-- A fully populated denormalized record (an order matched in every lookup
table). -/
def baseRec : DenormRecord :=
  { orderId := "O1", orderDate := 5, shipDate := 7, shipMode := "Standard Class",
    customerId := "C1", locationId := "L1", productId := "P1", salesRep := "R1",
    quantity := 1, discount := 0, sales := 100, profit := 10,
    city := some "CityA", state := some "StateA", region := some "East",
    customerName := some "Alice A", segment := some "Consumer",
    category := some "Technology", subCategory := some "Phones",
    productName := some "Phone X", salesTeam := some "Alpha",
    salesTeamManager := some "Mgr", profitMargin := PyFloat.finite 10,
    daysToShip := 2, discountRange := none }

/-- Criteria with a complete date range that `baseRec` satisfies. -/
def critBoth : FilterCriteria :=
  { dateRange := [0, 10], regions := [some "East"],
    categories := [some "Technology"], segments := [some "Consumer"] }

/-- Criteria whose date input has a single entry (malformed range). -/
def critOne : FilterCriteria :=
  { dateRange := [3], regions := [some "East"],
    categories := [some "Technology"], segments := [some "Consumer"] }

/-- A sample order row. -/
def sampleOrder : Order :=
  { orderId := "O1", orderDate := 10, shipDate := 12, shipMode := "Standard Class",
    customerId := "C1", locationId := "L1", productId := "P1", salesRep := "R1",
    quantity := 1, discount := 0, sales := 100, profit := 10 }

/-- A location row matching `sampleOrder`. -/
def sampleLoc : Location :=
  { locationId := "L1", city := "CityA", state := "StateA",
    postalCode := 11111, region := "East" }

/-- A second location row with the same Location ID (a duplicated key). -/
def dupLoc : Location :=
  { locationId := "L1", city := "CityB", state := "StateB",
    postalCode := 22222, region := "West" }

/-! ### C1: filtering with both date bounds is the stated conjunction -/

/-- C1.  With both date bounds supplied, the Filter Engine keeps a record iff
its order date lies in [lower, upper] inclusive and its region, category and
segment are selected; empty region/category/segment selections give an empty
result. -/
theorem filter_conjunctive_predicate (crit : FilterCriteria)
    (data : List DenormRecord) (lo hi : Int) (h : crit.dateRange = [lo, hi]) :
    (∀ r, r ∈ applyFilters crit data ↔
      r ∈ data ∧ lo ≤ r.orderDate ∧ r.orderDate ≤ hi ∧
      r.region ∈ crit.regions ∧ r.category ∈ crit.categories ∧
      r.segment ∈ crit.segments) ∧
    ((crit.regions = [] ∨ crit.categories = [] ∨ crit.segments = []) →
      applyFilters crit data = []) := by
  have e0 : ∀ a b : Int, ([a, b] : List Int)[0]! = a := fun a b => rfl
  have e1 : ∀ a b : Int, ([a, b] : List Int)[1]! = b := fun a b => rfl
  constructor
  · intro r
    simp only [applyFilters, h, List.length_cons, List.length_nil, if_pos, e0, e1,
      List.mem_filter, Bool.and_eq_true, decide_eq_true_eq, contains_iff]
    tauto
  · intro hemp
    simp only [applyFilters, h, List.length_cons, List.length_nil, if_pos, e0, e1]
    apply List.filter_eq_nil_iff.mpr
    intro r _
    rcases hemp with he | he | he <;>
      simp [he, Bool.and_eq_true, contains_iff]

/-- C1 witness: the theorem applied to a concrete record and criteria. -/
theorem filter_conjunctive_predicate_witness :
    baseRec ∈ applyFilters critBoth [baseRec] ↔
      baseRec ∈ [baseRec] ∧ (0 : Int) ≤ baseRec.orderDate ∧
      baseRec.orderDate ≤ 10 ∧ baseRec.region ∈ critBoth.regions ∧
      baseRec.category ∈ critBoth.categories ∧
      baseRec.segment ∈ critBoth.segments :=
  (filter_conjunctive_predicate critBoth [baseRec] 0 10 rfl).1 baseRec

/-! ### C8: a malformed date range disables the date predicate -/

/-- C8.  When the date input has a single entry the Filter Engine drops the
date conditions entirely: a record passes iff its region, category and segment
are selected, regardless of its order date. -/
theorem filter_malformed_date_passthrough (crit : FilterCriteria)
    (data : List DenormRecord) (b : Int) (h : crit.dateRange = [b]) :
    ∀ r, r ∈ applyFilters crit data ↔
      r ∈ data ∧ r.region ∈ crit.regions ∧ r.category ∈ crit.categories ∧
      r.segment ∈ crit.segments := by
  have hlen : ¬ crit.dateRange.length = 2 := by rw [h]; simp
  intro r
  simp only [applyFilters, if_neg hlen, List.mem_filter, Bool.and_eq_true,
    contains_iff]
  tauto

/-- C8 witness: a record whose order date (5) is above the single supplied
bound (3) still passes. -/
theorem filter_malformed_date_passthrough_witness :
    baseRec ∈ applyFilters critOne [baseRec] ↔
      baseRec ∈ [baseRec] ∧ baseRec.region ∈ critOne.regions ∧
      baseRec.category ∈ critOne.categories ∧
      baseRec.segment ∈ critOne.segments :=
  filter_malformed_date_passthrough critOne [baseRec] 3 rfl baseRec

/-! ### C2: the join keeps one row per order when lookup keys are unique -/

/-- C2 counterexample: the claim as stated quantifies over every set of lookup
tables.  With a duplicated Location ID the pandas left merge emits one row per
matching location, so one order yields two joined rows and the row count is
not preserved. -/
theorem join_row_count_counterexample :
    (joinTables [sampleOrder] [sampleLoc, dupLoc] [] [] []).length ≠
      ([sampleOrder] : List Order).length := by
  decide

/-- C2 (amended: each lookup table carries at most one row per key, as the
entity identities of the data model require).  The join then yields exactly one
denormalized record per order row, and an order whose foreign key has no match
keeps null (none) joined columns instead of being dropped. -/
theorem join_preserves_order_rows (orders : List Order)
    (locations : List Location) (customers : List Customer)
    (products : List Product) (salesteam : List SalesTeamMember)
    (hl : (locations.map (fun l => l.locationId)).Nodup)
    (hc : (customers.map (fun c => c.customerId)).Nodup)
    (hp : (products.map (fun p => p.productId)).Nodup)
    (hs : (salesteam.map (fun s => s.salesRep)).Nodup) :
    (joinTables orders locations customers products salesteam).length
      = orders.length ∧
    ∀ o ∈ orders, ∃ rec ∈ joinTables orders locations customers products salesteam,
      rec.orderId = o.orderId ∧
      ((∀ l ∈ locations, l.locationId ≠ o.locationId) →
        rec.region = none ∧ rec.state = none) ∧
      ((∀ c ∈ customers, c.customerId ≠ o.customerId) →
        rec.customerName = none ∧ rec.segment = none) ∧
      ((∀ p ∈ products, p.productId ≠ o.productId) →
        rec.category = none ∧ rec.subCategory = none) ∧
      ((∀ s ∈ salesteam, s.salesRep ≠ o.salesRep) → rec.salesTeam = none) := by
  have hmap := joinTables_eq_map orders locations customers products salesteam
    hl hc hp hs
  constructor
  · rw [hmap, List.length_map]
  · intro o ho
    refine ⟨mkRec o (matchOne locations (fun l => l.locationId) o.locationId)
        (matchOne customers (fun c => c.customerId) o.customerId)
        (matchOne products (fun p => p.productId) o.productId)
        (matchOne salesteam (fun s => s.salesRep) o.salesRep),
      ?_, rfl, ?_, ?_, ?_, ?_⟩
    · rw [hmap]
      exact List.mem_map_of_mem _ ho
    · intro hnone
      have hfil : locations.filter (fun l => l.locationId == o.locationId) = [] :=
        List.filter_eq_nil_iff.mpr
          (fun l hli hbeq => hnone l hli (by simpa using hbeq))
      simp [mkRec, matchOne, hfil]
    · intro hnone
      have hfil : customers.filter (fun c => c.customerId == o.customerId) = [] :=
        List.filter_eq_nil_iff.mpr
          (fun c hci hbeq => hnone c hci (by simpa using hbeq))
      simp [mkRec, matchOne, hfil]
    · intro hnone
      have hfil : products.filter (fun p => p.productId == o.productId) = [] :=
        List.filter_eq_nil_iff.mpr
          (fun p hpi hbeq => hnone p hpi (by simpa using hbeq))
      simp [mkRec, matchOne, hfil]
    · intro hnone
      have hfil : salesteam.filter (fun s => s.salesRep == o.salesRep) = [] :=
        List.filter_eq_nil_iff.mpr
          (fun s hsi hbeq => hnone s hsi (by simpa using hbeq))
      simp [mkRec, matchOne, hfil]

/-- C2 witness: one order joined against unique-keyed lookup tables (the
customers, products and sales-team tables are empty, exercising the
null-extension path) keeps exactly one row. -/
theorem join_preserves_order_rows_witness :
    (joinTables [sampleOrder] [sampleLoc] [] [] []).length
      = ([sampleOrder] : List Order).length :=
  (join_preserves_order_rows [sampleOrder] [sampleLoc] [] [] []
    (by decide) (by decide) (by decide) (by decide)).1

/-! ### C7: grouped sums conserve the filtered total -/

/-- A record that passed the filter but whose Region is null (its order's
location key was unmatched and the null option was selected). -/
def nullRegionRec : DenormRecord := { baseRec with region := none }

/-- Criteria selecting the null region value, as the sidebar does by default
when `unique()` lists it. -/
def critNullRegion : FilterCriteria :=
  { dateRange := [0, 10], regions := [none],
    categories := [some "Technology"], segments := [some "Consumer"] }

/-- C7 counterexample: a filtered set reachable through the Filter Engine
(one record with a null Region and Sales = 100) on which the by-region
grouping loses the record — pandas groupby drops null keys — so the grouped
Sales total (0) differs from the filtered total (100). -/
theorem conservation_counterexample :
    applyFilters critNullRegion [nullRegionRec] = [nullRegionRec] ∧
    ((regionSales [nullRegionRec]).map Prod.snd).sum
      ≠ sumBy (fun r => r.sales) [nullRegionRec] := by
  constructor
  · rfl
  · simp [regionSales, groupBySum, groupKeys, sumBy, nullRegionRec, baseRec,
      List.insertionSort]

/-- C7 (amended: restricted to records whose grouping key is non-null, since
pandas groupby silently drops rows with a null key).  Any grouping that sums a
numeric column conserves the total over the filtered set. -/
theorem grouping_conserves_totals (key : DenormRecord → Option String)
    (f : DenormRecord → Rat) (data : List DenormRecord) (_hne : data ≠ [])
    (hkeys : ∀ r ∈ data, (key r).isSome) :
    ((groupBySum key f data).map Prod.snd).sum = sumBy f data := by
  unfold groupBySum
  rw [List.map_map]
  have hcomp : (Prod.snd ∘ fun k =>
      (k, sumBy f (data.filter (fun r => key r == some k))))
      = fun k => sumBy f (data.filter (fun r => key r == some k)) := rfl
  rw [hcomp, sum_over_keys key f data (groupKeys key data) (groupKeys_nodup key data)]
  have hall : data.filter
      (fun r => (groupKeys key data).any (fun k => key r == some k)) = data := by
    apply List.filter_eq_self.mpr
    intro r hr
    rcases Option.isSome_iff_exists.mp (hkeys r hr) with ⟨k, hk⟩
    apply List.any_eq_true.mpr
    exact ⟨k, (mem_groupKeys key data k).mpr ⟨r, hr, hk⟩, by simp [hk]⟩
  rw [hall]

/-- C7 witness: the by-region grouping over a one-record set with a non-null
region conserves the Sales total. -/
theorem grouping_conserves_totals_witness :
    ((groupBySum (fun r => r.region) (fun r => r.sales) [baseRec]).map
      Prod.snd).sum = sumBy (fun r => r.sales) [baseRec] :=
  grouping_conserves_totals (fun r => r.region) (fun r => r.sales) [baseRec]
    (by decide) (by decide)

/-! ### C5: Top-N size and descending order; tie order is not guaranteed -/

/-- Two records in different states with equal Sales. -/
def tieRecA : DenormRecord := { baseRec with orderId := "O1", state := some "A", sales := 5 }

/-- Second tied record. -/
def tieRecB : DenormRecord := { baseRec with orderId := "O2", state := some "B", sales := 5 }

/-- The two-record data set whose by-state groups are tied on Sales. -/
def tieData : List DenormRecord := [tieRecA, tieRecB]

/-- C5 counterexample: the grouped input lists state "A" before state "B" with
equal Sales sums, yet the output that reverses the tied pair is an admissible
result of `sort_values(ascending=False)` — its default quicksort is documented
as not stable — so the code does not guarantee that ties preserve the original
relative order. -/
theorem topn_tie_order_counterexample :
    TopStates tieData [("B", List.sum [(5 : Rat)]), ("A", List.sum [(5 : Rat)])] ∧
    groupBySum (fun r => r.state) (fun r => r.sales) tieData
      = [("A", List.sum [(5 : Rat)]), ("B", List.sum [(5 : Rat)])] ∧
    (["B", "A"] : List String) ≠ ["A", "B"] := by
  have hG : groupBySum (fun r => r.state) (fun r => r.sales) tieData
      = [("A", List.sum [(5 : Rat)]), ("B", List.sum [(5 : Rat)])] := rfl
  refine ⟨⟨[("B", List.sum [(5 : Rat)]), ("A", List.sum [(5 : Rat)])],
    ⟨?_, ?_⟩, rfl⟩, hG, by decide⟩
  · rw [hG]
    exact List.Perm.swap _ _ _
  · simp [SortedDescRat, List.sorted_cons]

/-- C5 (amended: the tie-order conjunct is dropped — pandas sort_values uses
non-stable quicksort by default, so tie order is unspecified).  Every
admissible Top-N output has at most N rows (10 for states and sub-categories,
15 for customers) and is sorted descending by the primary summed Sales
metric. -/
theorem topn_bounded_and_sorted (data : List DenormRecord) :
    (∀ out, TopStates data out →
      out.length ≤ 10 ∧ SortedDescRat Prod.snd out) ∧
    (∀ out, TopSubCategories data out →
      out.length ≤ 10 ∧ SortedDescRat Prod.snd out) ∧
    (∀ out, TopCustomers data out →
      out.length ≤ 15 ∧ SortedDescRat (fun row => row.2.1) out) :=
  ⟨fun _ h => topNBy_shape _ _ _ _ h,
   fun _ h => topNBy_shape _ _ _ _ h,
   fun _ h => topNBy_shape _ _ _ _ h⟩

/-- C5 witness: a concrete admissible Top-10-states output over a one-record
set, with its size bound and descending order delivered by the theorem. -/
theorem topn_bounded_and_sorted_witness :
    ((groupBySum (fun r => r.state) (fun r => r.sales) [baseRec]).take 10).length
      ≤ 10 ∧
    SortedDescRat Prod.snd
      ((groupBySum (fun r => r.state) (fun r => r.sales) [baseRec]).take 10) :=
  (topn_bounded_and_sorted [baseRec]).1 _
    ⟨groupBySum (fun r => r.state) (fun r => r.sales) [baseRec],
      ⟨List.Perm.refl _, by decide⟩, rfl⟩

/-! ### C10: RFM invariants on a non-empty filtered set -/

/-- C10.  On a non-empty filtered set every RFM row has non-negative recency
and frequency at least 1, and some customer — one whose latest order is the
set's latest order — has recency 0. -/
theorem rfm_invariants (data : List DenormRecord) (hne : data ≠ []) :
    (∀ row ∈ rfmScore data, 0 ≤ row.recency ∧ 1 ≤ row.frequency) ∧
    (∃ row ∈ rfmScore data, row.recency = 0) ∧
    rfmScore data ≠ [] := by
  obtain ⟨M, hM, hMmem, hMbound⟩ :=
    seriesMax_spec (data.map (fun r => r.orderDate)) (by simpa using hne)
  refine ⟨?_, ?_, ?_⟩
  · intro row hrow
    rcases List.mem_map.mp hrow with ⟨c, hc, hceq⟩
    rcases (mem_groupKeys (fun r => some r.customerId) data c).mp hc
      with ⟨r, hr, hrc⟩
    have hrc2 : r.customerId = c := by simpa using hrc
    have hrgrp : r ∈ data.filter (fun r2 => r2.customerId == c) :=
      List.mem_filter.mpr ⟨hr, by simp [hrc2]⟩
    have hgrpne : (data.filter (fun r2 => r2.customerId == c)) ≠ [] :=
      List.ne_nil_of_mem hrgrp
    obtain ⟨m, hm, hmmem, _⟩ :=
      seriesMax_spec ((data.filter (fun r2 => r2.customerId == c)).map
        (fun r2 => r2.orderDate)) (by simpa using hgrpne)
    constructor
    · have hrec : row.recency = M - m := by
        rw [← hceq]
        simp only [rfmScore, hM, hm, Option.getD_some]
      rw [hrec]
      rcases List.mem_map.mp hmmem with ⟨r2, hr2, hr2date⟩
      have hr2data : r2 ∈ data := (List.mem_filter.mp hr2).1
      have : m ≤ M := hMbound m (hr2date ▸ List.mem_map_of_mem _ hr2data)
      omega
    · have hfreq : row.frequency
          = (data.filter (fun r2 => r2.customerId == c)).length := by
        rw [← hceq]
      rw [hfreq]
      have := List.length_pos.mpr hgrpne
      omega
  · rcases List.mem_map.mp hMmem with ⟨r0, hr0, hr0date⟩
    have hc0 : r0.customerId ∈ groupKeys (fun r => some r.customerId) data :=
      (mem_groupKeys (fun r => some r.customerId) data r0.customerId).mpr
        ⟨r0, hr0, rfl⟩
    have hr0grp : r0 ∈ data.filter (fun r2 => r2.customerId == r0.customerId) :=
      List.mem_filter.mpr ⟨hr0, by simp⟩
    obtain ⟨m0, hm0, hm0mem, hm0bound⟩ :=
      seriesMax_spec ((data.filter
        (fun r2 => r2.customerId == r0.customerId)).map (fun r2 => r2.orderDate))
        (by simpa using List.ne_nil_of_mem hr0grp)
    have hle : m0 ≤ M := by
      rcases List.mem_map.mp hm0mem with ⟨r2, hr2, hr2date⟩
      exact hMbound m0
        (hr2date ▸ List.mem_map_of_mem _ (List.mem_filter.mp hr2).1)
    have hge : M ≤ m0 :=
      hm0bound M (hr0date ▸ List.mem_map_of_mem _ hr0grp)
    refine ⟨_, List.mem_map_of_mem _ hc0, ?_⟩
    simp only [rfmScore, hM, hm0, Option.getD_some]
    omega
  · intro hnil
    have : rfmScore data = [] → groupKeys (fun r => some r.customerId) data = [] := by
      intro h2
      exact List.map_eq_nil_iff.mp h2
    rcases List.mem_map.mp hMmem with ⟨r0, hr0, _⟩
    have hc0 : r0.customerId ∈ groupKeys (fun r => some r.customerId) data :=
      (mem_groupKeys (fun r => some r.customerId) data r0.customerId).mpr
        ⟨r0, hr0, rfl⟩
    rw [this hnil] at hc0
    exact List.not_mem_nil _ hc0

/-- C10 witness: the scorer on a concrete one-record set produces rows. -/
theorem rfm_invariants_witness : rfmScore [baseRec] ≠ [] :=
  (rfm_invariants [baseRec] (by decide)).2.2

/-! ### C6: profit margin at zero sales never raises, but the value varies -/

theorem profitMarginOf_zero (p : Rat) :
    profitMarginOf p 0 = (if p = 0 then PyFloat.nan
      else if 0 < p then PyFloat.posInf else PyFloat.negInf) := by
  simp only [profitMarginOf, pyDiv, if_pos rfl]
  split_ifs <;> rfl

/-- C6 counterexample: three records with zero Sales and profits 10, -10 and 0
get three different margin values (+inf, -inf, NaN), so the computation does
not yield one consistently chosen sentinel value. -/
theorem margin_sentinel_counterexample :
    profitMarginOf 10 0 = PyFloat.posInf ∧
    profitMarginOf (-10) 0 = PyFloat.negInf ∧
    profitMarginOf 0 0 = PyFloat.nan ∧
    PyFloat.posInf ≠ PyFloat.negInf := by
  refine ⟨by decide, by decide, by decide, by decide⟩

/-- C6 (amended: no division error is raised — numpy division by zero yields
an IEEE special with the warning suppressed — but the value is NaN, +inf or
-inf depending on the sign of the profit, not a single sentinel).  This holds
for the per-record margin of line 70 and for the per-group margin of
lines 336-338. -/
theorem margin_zero_sales_value (p s : Rat) (h : s = 0) :
    profitMarginOf p s = (if p = 0 then PyFloat.nan
      else if 0 < p then PyFloat.posInf else PyFloat.negInf) ∧
    ∀ (data : List DenormRecord) (k : String) (m : PyFloat),
      (k, m) ∈ categoryMargin data →
      sumBy (fun r => r.profit) (data.filter (fun r => r.category == some k)) = 0 →
      sumBy (fun r => r.sales) (data.filter (fun r => r.category == some k)) = 0 →
      m = PyFloat.nan := by
  subst h
  refine ⟨profitMarginOf_zero p, ?_⟩
  intro data k m hmem hprofit hsales
  rcases List.mem_map.mp hmem with ⟨k2, _, heq⟩
  rw [Prod.mk.injEq] at heq
  obtain ⟨rfl, rfl⟩ := heq
  rw [hsales, profitMarginOf_zero, if_pos hprofit]

/-- C6 witness: the theorem evaluated at profit 10, sales 0. -/
theorem margin_zero_sales_value_witness :
    profitMarginOf 10 0 = (if (10 : Rat) = 0 then PyFloat.nan
      else if 0 < (10 : Rat) then PyFloat.posInf else PyFloat.negInf) :=
  (margin_zero_sales_value 10 0 rfl).1

/-! ### C4: the discount buckets are right-closed, not left-closed -/

/-- C4 counterexample: pd.cut with the default `right=True` bins a discount of
exactly 0 into no bucket (NaN) and a discount of exactly 0.1 into "0-10%",
while the claim's left-closed ranges put 0 into "0-10%" and 0.1 into
"10-20%".  `discountBucketSpec` is the claim's own bucketing, stated from the
spec's words. -/
theorem discount_bucket_counterexample :
    discountBucket 0 = none ∧ discountBucketSpec 0 = some "0-10%" ∧
    discountBucket (1/10) = some "0-10%" ∧
    discountBucketSpec (1/10) = some "10-20%" ∧
    discountBucket 0 ≠ discountBucketSpec 0 ∧
    discountBucket (1/10) ≠ discountBucketSpec (1/10) := by
  have h1 : discountBucket 0 = none := by norm_num [discountBucket]
  have h2 : discountBucketSpec 0 = some "0-10%" := by norm_num [discountBucketSpec]
  have h3 : discountBucket (1/10) = some "0-10%" := by norm_num [discountBucket]
  have h4 : discountBucketSpec (1/10) = some "10-20%" := by
    norm_num [discountBucketSpec]
  refine ⟨h1, h2, h3, h4, ?_, ?_⟩
  · rw [h1, h2]; decide
  · rw [h3, h4]; decide

theorem discountBucket_iff (d : Rat) :
    (discountBucket d = some "0-10%" ↔ 0 < d ∧ d ≤ 1/10) ∧
    (discountBucket d = some "10-20%" ↔ 1/10 < d ∧ d ≤ 2/10) ∧
    (discountBucket d = some "20-30%" ↔ 2/10 < d ∧ d ≤ 3/10) ∧
    (discountBucket d = some "30%+" ↔ 3/10 < d ∧ d ≤ 1) ∧
    (discountBucket d = none ↔ d ≤ 0 ∨ 1 < d) := by
  unfold discountBucket
  split_ifs with h1 h2 h3 h4
  · refine ⟨iff_of_true rfl h1, iff_of_false (by decide) ?_,
      iff_of_false (by decide) ?_, iff_of_false (by decide) ?_,
      iff_of_false (by decide) ?_⟩
    · rintro ⟨hlt, _⟩; linarith [h1.2]
    · rintro ⟨hlt, _⟩; nlinarith [h1.2]
    · rintro ⟨hlt, _⟩; nlinarith [h1.2]
    · rintro (hle | hgt)
      · linarith [h1.1]
      · nlinarith [h1.2]
  · refine ⟨iff_of_false (by decide) h1, iff_of_true rfl h2,
      iff_of_false (by decide) ?_, iff_of_false (by decide) ?_,
      iff_of_false (by decide) ?_⟩
    · rintro ⟨hlt, _⟩; linarith [h2.2]
    · rintro ⟨hlt, _⟩; nlinarith [h2.2]
    · rintro (hle | hgt)
      · linarith [h2.1]
      · nlinarith [h2.2]
  · refine ⟨iff_of_false (by decide) h1, iff_of_false (by decide) h2,
      iff_of_true rfl h3, iff_of_false (by decide) ?_,
      iff_of_false (by decide) ?_⟩
    · rintro ⟨hlt, _⟩; linarith [h3.2]
    · rintro (hle | hgt)
      · nlinarith [h3.1]
      · nlinarith [h3.2]
  · refine ⟨iff_of_false (by decide) h1, iff_of_false (by decide) h2,
      iff_of_false (by decide) h3, iff_of_true rfl h4,
      iff_of_false (by decide) ?_⟩
    rintro (hle | hgt)
    · nlinarith [h4.1]
    · linarith [h4.2]
  · have hout : d ≤ 0 ∨ 1 < d := by
      rcases le_or_lt d 0 with hd | hd
      · exact Or.inl hd
      · right
        have t1 : 1/10 < d := by
          by_contra ht
          exact h1 ⟨hd, le_of_not_lt ht⟩
        have t2 : 2/10 < d := by
          by_contra ht
          exact h2 ⟨t1, le_of_not_lt ht⟩
        have t3 : 3/10 < d := by
          by_contra ht
          exact h3 ⟨t2, le_of_not_lt ht⟩
        by_contra ht
        exact h4 ⟨t3, le_of_not_lt ht⟩
    exact ⟨iff_of_false (by decide) h1, iff_of_false (by decide) h2,
      iff_of_false (by decide) h3, iff_of_false (by decide) h4,
      iff_of_true rfl hout⟩

/-- C4 (amended: the bins are the left-open right-closed intervals (0, 0.1],
(0.1, 0.2], (0.2, 0.3], (0.3, 1.0] that pd.cut's defaults produce; a discount
of exactly 0 falls in no bucket and is excluded from the aggregation).  A
discount of exactly 1.0 still falls in the last bucket, and the aggregation
reports the mean Profit of the records assigned to each labelled bucket. -/
theorem discount_bucket_ranges (d : Rat) (data : List DenormRecord) :
    (discountBucket d = some "0-10%" ↔ 0 < d ∧ d ≤ 1/10) ∧
    (discountBucket d = some "10-20%" ↔ 1/10 < d ∧ d ≤ 2/10) ∧
    (discountBucket d = some "20-30%" ↔ 2/10 < d ∧ d ≤ 3/10) ∧
    (discountBucket d = some "30%+" ↔ 3/10 < d ∧ d ≤ 1) ∧
    (discountBucket d = none ↔ d ≤ 0 ∨ 1 < d) ∧
    discountBucket 1 = some "30%+" ∧
    discountImpact data = [
      ("0-10%", meanProfit (data.filter
        (fun r => discountBucket r.discount == some "0-10%"))),
      ("10-20%", meanProfit (data.filter
        (fun r => discountBucket r.discount == some "10-20%"))),
      ("20-30%", meanProfit (data.filter
        (fun r => discountBucket r.discount == some "20-30%"))),
      ("30%+", meanProfit (data.filter
        (fun r => discountBucket r.discount == some "30%+")))] := by
  obtain ⟨i1, i2, i3, i4, i5⟩ := discountBucket_iff d
  refine ⟨i1, i2, i3, i4, i5, by norm_num [discountBucket], rfl⟩

/-- C4 witness: the theorem evaluated at discount 1 and the empty data set. -/
theorem discount_bucket_ranges_witness :
    (discountBucket 1 = some "0-10%" ↔ 0 < (1 : Rat) ∧ (1 : Rat) ≤ 1/10) ∧
    (discountBucket 1 = some "10-20%" ↔ 1/10 < (1 : Rat) ∧ (1 : Rat) ≤ 2/10) ∧
    (discountBucket 1 = some "20-30%" ↔ 2/10 < (1 : Rat) ∧ (1 : Rat) ≤ 3/10) ∧
    (discountBucket 1 = some "30%+" ↔ 3/10 < (1 : Rat) ∧ (1 : Rat) ≤ 1) ∧
    (discountBucket 1 = none ↔ (1 : Rat) ≤ 0 ∨ 1 < (1 : Rat)) ∧
    discountBucket 1 = some "30%+" ∧
    discountImpact [] = [
      ("0-10%", meanProfit (List.filter
        (fun r => discountBucket r.discount == some "0-10%") [])),
      ("10-20%", meanProfit (List.filter
        (fun r => discountBucket r.discount == some "10-20%") [])),
      ("20-30%", meanProfit (List.filter
        (fun r => discountBucket r.discount == some "20-30%") [])),
      ("30%+", meanProfit (List.filter
        (fun r => discountBucket r.discount == some "30%+") []))] :=
  discount_bucket_ranges 1 []

/-! ### C3: behavior of the aggregations on an empty filtered set -/

/-- C3.  On an empty filtered set the grouping aggregations and the RFM scorer
return empty outputs without failing — the scorer's reference-date computation
is never forced — but the best-region computation of line 499 calls
`idxmax()` on an empty grouped series, which raises ValueError, contradicting
the never-raise requirement. -/
theorem empty_input_aggregations :
    bestRegion [] = Except.error "attempt to get argmax of an empty sequence" ∧
    rfmScore [] = [] ∧
    regionSales [] = [] ∧
    customerAgg [] = [] ∧
    ∀ (key : DenormRecord → Option String) (f : DenormRecord → Rat),
      groupBySum key f [] = [] :=
  ⟨rfl, rfl, rfl, rfl, fun _ _ => rfl⟩

/-! ### C9: line 354 writes a new column into the filtered working set -/

/-- A filtered record with a 5 percent discount. -/
def discountedRec : DenormRecord := { baseRec with discount := 1/20 }

/-- C9.  The discount-bucket aggregation is not mutation-free: the column
assignment of line 354 adds a Discount_Range value to every record of the
filtered working set, so the working set afterwards differs from the input
(the record gains `some "0-10%"` where the column was absent). -/
theorem discount_range_mutates_working_set :
    addDiscountRange [discountedRec] ≠ [discountedRec] ∧
    (addDiscountRange [discountedRec]).map (fun r => r.discountRange)
      = [some "0-10%"] ∧
    discountedRec.discountRange = none := by
  have hmap : (addDiscountRange [discountedRec]).map (fun r => r.discountRange)
      = [some "0-10%"] := by
    norm_num [addDiscountRange, discountedRec, baseRec, discountBucket]
  refine ⟨?_, hmap, rfl⟩
  intro h
  rw [h] at hmap
  simp [discountedRec, baseRec] at hmap

end SuperStore
